import Mathlib

/-!
# Verification of the kinect-pointcloud-to-blender repository

Shallow embedding of the two source files (`src/server.py`, `src/client.py`)
of the kinect-pointcloud-to-blender repository, together with theorems that
settle the spec claims C1..C10.

Conventions used throughout:
* Python `bytes`/`bytearray` values are `List Nat` with every element `< 256`.
* The thread-safe `queue.Queue` used as a single-slot mailbox is a `List`
  of frames (front = oldest).
* A Python expression that can raise is embedded as an `Option`-valued
  function; `none` models the raised exception (or, on the socket paths,
  a `break` out of the connection loop without publishing a frame).
* Machine floats of the renderer are embedded as exact rationals `ℚ`;
  the transcendental `np.log1p` is kept abstract as a function parameter.
* Wall-clock timestamps (`time.strftime("%H:%M:%S")`) are passed in as
  explicit string parameters.
-/

namespace Kinect

/-! ## Single-slot frame queue (src/server.py lines 256-262)

`server_run` publishes a decoded frame with

    while not frame_queue.empty():
        try:
            frame_queue.get_nowait()
        except queue.Empty:
            break
    frame_queue.put(depth_map)

and the renderer consumes with `frame_queue.get_nowait()` (line 132).
-/

/-- The drain `while not frame_queue.empty(): frame_queue.get_nowait()` loop:
each iteration removes the oldest queued frame, until the queue is empty. -/
def drainAll {α : Type} : List α → List α
  | [] => []
  | _ :: rest => drainAll rest

/-- The publish step of `server_run`: drain any previously queued frames,
then `frame_queue.put(depth_map)`. -/
def publish {α : Type} (q : List α) (f : α) : List α :=
  drainAll q ++ [f]

/-- `frame_queue.get_nowait()` on the renderer side: returns the front frame
and the remaining queue, or `none` when the queue is empty
(`queue.Empty` raised, src/server.py line 132). -/
def getNowait {α : Type} : List α → Option (α × List α)
  | [] => none
  | f :: rest => some (f, rest)

theorem drainAll_eq_nil {α : Type} (q : List α) : drainAll q = [] := by
  induction q with
  | nil => rfl
  | cons _ rest ih => simpa [drainAll] using ih

/-- C1: publishing F1, F2, F3 in order (drain-then-put each time) onto any
starting queue leaves exactly `[F3]`; the renderer's drain yields only F3 and
empties the slot, so F1 and F2 are never observed, and after every publish at
most one frame is waiting. -/
theorem latest_wins_queue {α : Type} (q : List α) (f1 f2 f3 : α) :
    publish (publish (publish q f1) f2) f3 = [f3] ∧
    getNowait (publish (publish (publish q f1) f2) f3) = some (f3, []) ∧
    (∀ q' : List α, ∀ f : α, (publish q' f).length ≤ 1) := by
  refine ⟨?_, ?_, ?_⟩
  · simp [publish, drainAll_eq_nil]
  · simp [publish, drainAll_eq_nil, getNowait]
  · intro q' f
    simp [publish, drainAll_eq_nil]

/-! ## Accept-loop logging (src/server.py lines 237-270)

The accept loop of `server_run` is

    while not stop_event.is_set():
        try:
            conn, addr = s.accept()
            with conn:
                add_log("Client connected")
                ...inner frame loop...
        except socket.timeout:
            continue
        except Exception as e:
            add_log(f"Server error: {e}")
            break
        finally:
            add_log("Client disconnected")

By Python semantics the `finally` block also runs when the
`except socket.timeout: continue` path is taken, so every accept timeout
appends a "Client disconnected" log entry.  Log messages are modelled
without their `add_log` timestamp prefix (see `logEntry` below for the
timestamp formatting). -/

/-- What one iteration of the accept loop does after the `try` body:
continue with the next iteration, or break out of the accept loop, or fall
through normally to the loop condition. -/
inductive LoopAct : Type
  | cont : LoopAct
  | fallthrough : LoopAct
  | brk : LoopAct
deriving DecidableEq, Repr

/-- The event that decides one iteration of the accept loop: `s.accept()`
raised `socket.timeout`, or a connection was accepted and its session ended
either normally (peer disconnect / stop signal) or with an exception caught
by `except Exception as e`. -/
inductive AcceptEvent : Type
  | timeout : AcceptEvent
  | session (error : Option String) : AcceptEvent

/-- Logs emitted and loop action chosen by the `try` body together with its
`except` handlers (the `finally` clause is not yet applied). -/
def acceptBodyLogs : AcceptEvent → List String × LoopAct
  | .timeout => ([], .cont)
  | .session none => (["Client connected"], .fallthrough)
  | .session (some e) => (["Client connected", "Server error: " ++ e], .brk)

/-- One full iteration of the accept loop: the `finally:
add_log("Client disconnected")` clause runs on every path out of the `try`
statement, including the `continue` of the timeout handler. -/
def acceptIterLogs (ev : AcceptEvent) : List String × LoopAct :=
  ((acceptBodyLogs ev).1 ++ ["Client disconnected"], (acceptBodyLogs ev).2)

/-- C2: the claim says an accept-timeout iteration produces no log entry.
The code disagrees: the `finally` clause runs even on the
`except socket.timeout: continue` path, so every accept timeout logs
"Client disconnected".  This theorem evaluates the embedded iteration at the
failing input (a timeout event). -/
theorem accept_timeout_is_logged :
    acceptIterLogs .timeout = (["Client disconnected"], .cont) ∧
    (acceptIterLogs .timeout).1 ≠ [] := by
  constructor
  · rfl
  · intro h
    simp [acceptIterLogs, acceptBodyLogs] at h

/-! ## Operator lifecycle (src/server.py lines 279-322)

State touched by `WM_OT_StartKinectServer.execute` and
`WM_OT_StopKinectServer.execute`: the module-global worker-thread handle
(`server_thread`, `none` = Python `None`, `some alive` = a thread object
whose `is_alive()` returns `alive`), the `stop_event` flag, the
`bpy.app.timers` registration of `update_point_cloud`, the frame queue and
the log deque (messages without timestamps). -/

structure PluginState : Type where
  serverThread : Option Bool
  stopEvent : Bool
  timerRegistered : Bool
  frameQueue : List (List (List Nat))
  logs : List String
deriving Repr

/-- `self.report({...}, msg)` outcome of an operator. -/
inductive Report : Type
  | info (msg : String) : Report
  | warning (msg : String) : Report
deriving DecidableEq, Repr

/-- `WM_OT_StartKinectServer.execute` (src/server.py lines 284-299):
if no worker is alive, clear the stop event, spawn the worker, register the
renderer timer and report INFO; otherwise log and report a WARNING. -/
def startExec (s : PluginState) : PluginState × Report :=
  match s.serverThread with
  | some true =>
      ({ s with logs := s.logs ++ ["Start attempted but server already running."] },
       .warning "Server is already running.")
  | _ =>
      ({ s with stopEvent := false, serverThread := some true, timerRegistered := true,
                logs := s.logs ++ ["Kinect server started."] },
       .info "Kinect server started.")

/-- `WM_OT_StopKinectServer.execute` (src/server.py lines 306-322):
first unregister the renderer timer if registered (unconditional on the
worker), then if a worker is alive, signal it, join it and clear the handle
with an INFO report; otherwise log and report a WARNING. -/
def stopExec (s : PluginState) : PluginState × Report :=
  let s1 := { s with timerRegistered := false }
  match s.serverThread with
  | some true =>
      ({ s1 with stopEvent := true, serverThread := none,
                 logs := s1.logs ++ ["Kinect server stopped."] },
       .info "Kinect server stopped.")
  | _ =>
      ({ s1 with logs := s1.logs ++ ["Stop attempted but server was not running."] },
       .warning "Server is not running.")

/-- C3: invoking Stop in a state where the server was never started or was
already stopped (worker handle `None`, timer not registered) reports a
warning and changes nothing but the log, which gains exactly the warning
entry; invoking Start twice in a row leaves exactly one active worker, and
the second call changes only the log and reports a warning. -/
theorem lifecycle_guard (s t : PluginState)
    (hthread : s.serverThread = none) (htimer : s.timerRegistered = false) :
    (stopExec s).2 = .warning "Server is not running." ∧
    (stopExec s).1 = { s with logs := s.logs ++ ["Stop attempted but server was not running."] } ∧
    (startExec t).1.serverThread = some true ∧
    (startExec (startExec t).1).2 = .warning "Server is already running." ∧
    (startExec (startExec t).1).1 =
      { (startExec t).1 with
        logs := (startExec t).1.logs ++ ["Start attempted but server already running."] } := by
  have hstart : ∀ u : PluginState, (startExec u).1.serverThread = some true := by
    intro u
    cases hu : u.serverThread with
    | none => simp [startExec, hu]
    | some alive => cases alive <;> simp [startExec, hu]
  refine ⟨?_, ?_, hstart t, ?_, ?_⟩
  · simp [stopExec, hthread]
  · simp [stopExec, hthread, htimer]
  · have h1 := hstart t
    generalize hu : (startExec t).1 = u at h1 ⊢
    simp [startExec, h1]
  · have h1 := hstart t
    generalize hu : (startExec t).1 = u at h1 ⊢
    simp [startExec, h1]

/-- C3 witness: the guard theorem applied at the initial plugin state
(no worker, stop event clear, no timer, empty queue and log). -/
theorem lifecycle_guard_witness :
    (stopExec ⟨none, false, false, [], []⟩).2 = .warning "Server is not running." ∧
    (startExec (startExec ⟨none, false, false, [], []⟩).1).2 =
      .warning "Server is already running." := by
  have h := lifecycle_guard ⟨none, false, false, [], []⟩ ⟨none, false, false, [], []⟩ rfl rfl
  exact ⟨h.1, h.2.2.2.1⟩

/-! ## Point decimation (src/server.py lines 157-162)

    point_drop_amount = bpy.context.scene.kinect_point_drop_amount
    if point_drop_amount > 1:
        pixel_x = pixel_x[::point_drop_amount]
        ...

NumPy slicing `a[::n]` keeps the elements at indices `0, n, 2n, ...`.
`strideEvery` embeds that slicing; the three coordinate arrays are sliced
with the same stride, which is the same as slicing the list of
`(x, y, depth)` triples. -/

/-- NumPy `a[::n]`: keep the head, then recurse after dropping the next
`n - 1` elements. -/
def strideEvery {α : Type} (n : Nat) : List α → List α
  | [] => []
  | x :: rest => x :: strideEvery n (rest.drop (n - 1))
termination_by l => l.length
decreasing_by
  simp only [List.length_drop, List.length_cons]
  omega

/-- The decimation step: slice with stride `n` only when
`point_drop_amount > 1`, else leave the arrays untouched. -/
def decimate {α : Type} (n : Nat) (xs : List α) : List α :=
  if 1 < n then strideEvery n xs else xs

theorem strideEvery_nil {α : Type} (n : Nat) : strideEvery n ([] : List α) = [] := by
  simp [strideEvery]

theorem strideEvery_length {α : Type} (n : Nat) (hn : 0 < n) (xs : List α) :
    (strideEvery n xs).length = (xs.length + n - 1) / n := by
  induction xs using strideEvery.induct n with
  | case1 =>
      simp only [strideEvery, List.length_nil, Nat.zero_add]
      exact (Nat.div_eq_of_lt (by omega)).symm
  | case2 x rest ih =>
      simp only [strideEvery, List.length_cons, List.length_drop] at ih ⊢
      rw [ih]
      rcases le_or_lt (n - 1) rest.length with h | h
      · have e1 : rest.length - (n - 1) + n - 1 = rest.length := by omega
        have e2 : rest.length + 1 + n - 1 = rest.length + n := by omega
        rw [e1, e2, Nat.add_div_right _ hn]
      · have e1 : rest.length - (n - 1) + n - 1 = n - 1 := by omega
        have e2 : rest.length + 1 + n - 1 = rest.length + n := by omega
        rw [e1, e2, Nat.add_div_right _ hn, Nat.div_eq_of_lt (by omega),
          Nat.div_eq_of_lt (by omega)]

theorem strideEvery_getElem {α : Type} (n : Nat) (hn : 0 < n) (xs : List α) (i : Nat) :
    (strideEvery n xs)[i]? = xs[i * n]? := by
  induction xs using strideEvery.induct n generalizing i with
  | case1 => simp [strideEvery]
  | case2 x rest ih =>
      cases i with
      | zero => simp [strideEvery]
      | succ j =>
          rw [Nat.succ_mul]
          simp only [strideEvery, List.getElem?_cons_succ]
          rw [ih, List.getElem?_drop]
          generalize j * n = k
          rw [List.getElem?_cons]
          rw [if_neg (by omega)]
          congr 1
          omega

/-- C5: for every valid-pixel sequence and every `point_drop_amount` `n` in
`[1, 64]`, the decimation step keeps exactly `⌈length / n⌉` elements, namely
every `n`-th element of the order-preserved sequence starting at index 0. -/
theorem decimation_stride {α : Type} (xs : List α) (n : Nat)
    (h1 : 1 ≤ n) (h64 : n ≤ 64) :
    (decimate n xs).length = (xs.length + n - 1) / n ∧
    ∀ i : Nat, (decimate n xs)[i]? = xs[i * n]? := by
  by_cases h : 1 < n
  · simp only [decimate, if_pos h]
    exact ⟨strideEvery_length n (by omega) xs,
           fun i => strideEvery_getElem n (by omega) xs i⟩
  · have hn1 : n = 1 := by omega
    subst hn1
    simp [decimate, Nat.mul_one]

/-- C5 witness: decimation with stride 2 on a five-element sequence keeps
`⌈5 / 2⌉ = 3` elements, and the element at index 1 is the source element at
index 2. -/
theorem decimation_stride_witness :
    (decimate 2 [0, 1, 2, 3, 4]).length = 3 ∧
    (decimate 2 [0, 1, 2, 3, 4])[1]? = some 2 := by
  have h := decimation_stride [0, 1, 2, 3, 4] 2 (by decide) (by decide)
  exact ⟨h.1.trans (by norm_num), (h.2 1).trans rfl⟩

/-! ## Scene configuration reads and the vertex pipeline
(src/server.py lines 124-202)

The four scene properties may be absent (not yet registered); the reads at
lines 140 and 170-172 use `getattr(..., default)` with hard-coded fallbacks
`1 / 0.5 / 0.5 / 0.5`, while the re-read at line 158 is a plain attribute
access that raises `AttributeError` when the property is absent.  A raised
exception is modelled as `none`. -/

structure SceneProps : Type where
  kinect_point_drop_amount : Option Nat
  kinect_scale_factor_x : Option ℚ
  kinect_scale_factor_y : Option ℚ
  kinect_scale_factor_z : Option ℚ
deriving Repr

/-- Line 140: `getattr(bpy.context.scene, "kinect_point_drop_amount", 1)`. -/
def getattrDropAmount (s : SceneProps) : Nat :=
  s.kinect_point_drop_amount.getD 1

/-- Line 170: `getattr(bpy.context.scene, "kinect_scale_factor_x", 0.5)`. -/
def getattrScaleX (s : SceneProps) : ℚ :=
  s.kinect_scale_factor_x.getD 0.5

/-- Line 171: `getattr(bpy.context.scene, "kinect_scale_factor_y", 0.5)`. -/
def getattrScaleY (s : SceneProps) : ℚ :=
  s.kinect_scale_factor_y.getD 0.5

/-- Line 172: `getattr(bpy.context.scene, "kinect_scale_factor_z", 0.5)`. -/
def getattrScaleZ (s : SceneProps) : ℚ :=
  s.kinect_scale_factor_z.getD 0.5

/-- Line 158: `bpy.context.scene.kinect_point_drop_amount`, a plain
attribute access with no fallback; `none` models the `AttributeError`
raised when the property is not registered. -/
def attrDropAmount (s : SceneProps) : Option Nat :=
  s.kinect_point_drop_amount

/-- Line 166: `z_meters = 1.0 / (valid_depths * -0.0030711016 + 3.3309495161)`,
embedded in exact rational arithmetic. -/
def zMetersQ (d : ℚ) : ℚ :=
  1 / (d * (-0.0030711016) + 3.3309495161)

/-- Lines 147-155: the validity mask `depth_map < 2047` applied to the dense
`np.indices` coordinate grids and to the depth values, in row-major order:
the surviving `(x, y, depth)` triples. -/
def validPixels (depth : Nat → Nat → Nat) : List (Nat × Nat × Nat) :=
  (List.range 480).flatMap fun y =>
    (List.range 640).filterMap fun x =>
      if depth y x < 2047 then some (x, y, depth y x) else none

/-- Lines 138-183 of `update_point_cloud`, from the property read to the
vertex array: mask, decimation-time re-read of `point_drop_amount`,
decimation, depth conversion and the world-coordinate formulas, producing
the `(world_x, visual_z, world_y)` vertex triples.  `log1p` abstracts
`np.log1p`; `none` models a raised `AttributeError`. -/
def updatePointCloudVerts (log1p : ℚ → ℚ) (scene : SceneProps)
    (depth : Nat → Nat → Nat) : Option (List (ℚ × ℚ × ℚ)) :=
  let _dropFirstRead := getattrDropAmount scene
  let valid := validPixels depth
  match attrDropAmount scene with
  | none => none
  | some pda =>
      let kept := decimate pda valid
      let sx := getattrScaleX scene
      let sy := getattrScaleY scene
      let sz := getattrScaleZ scene
      some (kept.map fun p =>
        let zm := zMetersQ (p.2.2 : ℚ)
        let wx := -((p.1 : ℚ) - 640 / 2) * sx
        let wy := ((480 : ℚ) / 2 - (p.2.1 : ℚ)) * sy
        let vz := -(log1p zm) * (sz * 1000) / 2
        (wx, vz, wy))

/-- A scene on which none of the four plugin properties is registered. -/
def emptySceneProps : SceneProps := ⟨none, none, none, none⟩

/-- C4 counterexample: on a scene without the registered properties, the
decimation-time re-read of `point_drop_amount` (line 158) does not fall back
to a default: it raises, and the renderer tick aborts, refuting "every read
... does not raise". -/
theorem decimation_reread_raises :
    attrDropAmount emptySceneProps = none ∧
    updatePointCloudVerts (fun q => q) emptySceneProps (fun _ _ => 500) = none := by
  exact ⟨rfl, rfl⟩

/-- C4 amended: with the scene configuration properties absent, the
`getattr` reads fall back to the hard-coded defaults `1 / 0.5 / 0.5 / 0.5`
without raising, but the mandatory decimation-time re-read of
`point_drop_amount` is a plain attribute access that raises, so the whole
tick aborts before reaching the scale reads. -/
theorem getattr_fallback_defaults :
    getattrDropAmount emptySceneProps = 1 ∧
    getattrScaleX emptySceneProps = 1 / 2 ∧
    getattrScaleY emptySceneProps = 1 / 2 ∧
    getattrScaleZ emptySceneProps = 1 / 2 ∧
    ∀ (log1p : ℚ → ℚ) (depth : Nat → Nat → Nat),
      updatePointCloudVerts log1p emptySceneProps depth = none := by
  refine ⟨rfl, ?_, ?_, ?_, fun log1p depth => rfl⟩
  · norm_num [getattrScaleX, emptySceneProps]
  · norm_num [getattrScaleY, emptySceneProps]
  · norm_num [getattrScaleZ, emptySceneProps]

theorem validPixels_const2047 : validPixels (fun _ _ => 2047) = [] := by
  simp [validPixels]

/-- C6: a cell whose raw value is the sentinel 2047 never appears among the
valid pixels that generate vertices, and a grid consisting entirely of 2047
yields zero vertices. -/
theorem validity_masking (depth : Nat → Nat → Nat) (x y : Nat)
    (h : depth y x = 2047) (scene : SceneProps) (n : Nat)
    (hs : scene.kinect_point_drop_amount = some n) (log1p : ℚ → ℚ) :
    (∀ d : Nat, (x, y, d) ∉ validPixels depth) ∧
    updatePointCloudVerts log1p scene (fun _ _ => 2047) = some [] := by
  constructor
  · intro d hmem
    simp only [validPixels, List.mem_flatMap, List.mem_filterMap,
      List.mem_range] at hmem
    obtain ⟨y', hy', x', hx', hif⟩ := hmem
    by_cases hlt : depth y' x' < 2047
    · rw [if_pos hlt] at hif
      simp only [Option.some.injEq, Prod.mk.injEq] at hif
      obtain ⟨hx1, hy1, _⟩ := hif
      subst hx1
      subst hy1
      omega
    · rw [if_neg hlt] at hif
      exact Option.noConfusion hif
  · unfold updatePointCloudVerts
    simp [attrDropAmount, hs, validPixels_const2047, decimate, strideEvery_nil]

/-- C6 witness: the masking theorem at the all-2047 grid, pixel (0, 0) and a
scene with `point_drop_amount` registered as 1. -/
theorem validity_masking_witness :
    (0, 0, 999) ∉ validPixels (fun _ _ => 2047) ∧
    updatePointCloudVerts (fun q => q) ⟨some 1, some 1, some 1, some 1⟩
      (fun _ _ => 2047) = some [] := by
  have h := validity_masking (fun _ _ => 2047) 0 0 rfl
    ⟨some 1, some 1, some 1, some 1⟩ 1 rfl (fun q => q)
  exact ⟨h.1 999, h.2⟩

/-- C9 counterexample: the renderer's depth formula at raw depth 1023 gives
`10^10 / 1892125793 ≈ 5.285`, not approximately 1.041 meters; the claimed
value fails the claimed relative tolerance of `1e-6` by a wide margin. -/
theorem depth_formula_1023_not_1041 :
    zMetersQ 1023 = 10000000000 / 1892125793 ∧
    ¬ |zMetersQ 1023 - 1.041| ≤ 1e-6 * 1.041 := by
  have hz : zMetersQ 1023 = 10000000000 / 1892125793 := by
    norm_num [zMetersQ]
  refine ⟨hz, ?_⟩
  rw [hz, abs_of_pos (by norm_num)]
  norm_num

/-- C9 amended: for every kept raw depth reading `d` the renderer computes
`z_meters = 1.0 / (d * -0.0030711016 + 3.3309495161)`; in exact rational
arithmetic this gives `1 / 3.3309495161 = 10^10 / 33309495161 ≈ 0.30021`
for `d = 0`, and `10^10 / 1892125793 ≈ 5.2851` (not 1.041) for `d = 1023`. -/
theorem depth_to_meters_formula :
    zMetersQ 0 = 10000000000 / 33309495161 ∧
    (0.30021 : ℚ) < zMetersQ 0 ∧ zMetersQ 0 < 0.30022 ∧
    zMetersQ 1023 = 10000000000 / 1892125793 ∧
    (5.2850 : ℚ) < zMetersQ 1023 ∧ zMetersQ 1023 < 5.2851 := by
  norm_num [zMetersQ]

/-! ## Wire framing (src/client.py lines 61-65, src/server.py lines 207-254)

Client side:

    data = zlib.compress(depth_map.tobytes())
    s.sendall(struct.pack('!I', len(data)) + data)

Server side: `recvall(conn, 4)`, `struct.unpack('!I', ...)`,
`recvall(conn, data_size)`, `zlib.decompress`,
`np.frombuffer(..., dtype=np.uint16).reshape((480, 640))`.

Bytes are `List Nat`; the zlib pair is abstracted as a `compress` /
`decompress` function pair assumed mutually inverse (the documented zlib
contract).  The uint16 values are stored little-endian, the machine-native
order shared by both ends. -/

/-- `struct.pack('!I', n)`: the four big-endian bytes of `n`. -/
def packUInt32BE (n : Nat) : List Nat :=
  [n / 16777216 % 256, n / 65536 % 256, n / 256 % 256, n % 256]

/-- `struct.unpack('!I', b)[0]`: big-endian interpretation of the bytes. -/
def unpackUInt32BE (b : List Nat) : Nat :=
  b.foldl (fun acc byte => acc * 256 + byte) 0

theorem unpack_pack (n : Nat) (h : n < 4294967296) :
    unpackUInt32BE (packUInt32BE n) = n := by
  simp only [unpackUInt32BE, packUInt32BE, List.foldl_cons, List.foldl_nil]
  omega

/-- The two little-endian bytes of one uint16 value. -/
def u16ToBytesLE (v : Nat) : List Nat :=
  [v % 256, v / 256 % 256]

/-- `ndarray.tobytes()` for a flat uint16 array. -/
def u16ListToBytes (l : List Nat) : List Nat :=
  l.flatMap u16ToBytesLE

/-- `np.frombuffer(b, dtype=np.uint16)`: reassemble consecutive byte pairs
little-endian. -/
def bytesToU16LE : List Nat → List Nat
  | b0 :: b1 :: rest => (b0 + 256 * b1) :: bytesToU16LE rest
  | _ => []

theorem bytesToU16_u16ListToBytes (l : List Nat) (h : ∀ v ∈ l, v < 65536) :
    bytesToU16LE (u16ListToBytes l) = l := by
  induction l with
  | nil => rfl
  | cons v rest ih =>
      have hv : v < 65536 := h v (List.mem_cons_self v rest)
      have hrest : ∀ w ∈ rest, w < 65536 := fun w hw => h w (List.mem_cons_of_mem _ hw)
      have hstep : bytesToU16LE (u16ListToBytes (v :: rest)) =
          (v % 256 + 256 * (v / 256 % 256)) :: bytesToU16LE (u16ListToBytes rest) := rfl
      rw [hstep, ih hrest]
      congr 1
      omega

theorem u16ListToBytes_length (l : List Nat) :
    (u16ListToBytes l).length = 2 * l.length := by
  induction l with
  | nil => rfl
  | cons v rest ih =>
      simp only [u16ListToBytes, List.flatMap_cons, u16ToBytesLE, List.length_append,
        List.length_cons, List.length_nil] at ih ⊢
      omega

/-- `.reshape((480, 640))`, one row of 640 uint16 values at a time. -/
def toRows (rows : Nat) (l : List Nat) : List (List Nat) :=
  match rows with
  | 0 => []
  | r + 1 => l.take 640 :: toRows r (l.drop 640)

/-- `np.frombuffer(decompressed, dtype=np.uint16).reshape((480, 640))`
(src/server.py line 254), after the byte-pair reassembly. -/
def reshape480x640 (u16s : List Nat) : List (List Nat) :=
  toRows 480 u16s

theorem toRows_flatten (g : List (List Nat)) (h : ∀ r ∈ g, r.length = 640) :
    toRows g.length g.flatten = g := by
  induction g with
  | nil => rfl
  | cons row rest ih =>
      have hrow : row.length = 640 := h row (List.mem_cons_self row rest)
      have hrest : ∀ r ∈ rest, r.length = 640 := fun r hr => h r (List.mem_cons_of_mem _ hr)
      simp only [List.length_cons, List.flatten_cons, toRows]
      rw [List.take_left' hrow, List.drop_left' hrow, ih hrest]

/-- `depth_map.tobytes()` on a 480×640 uint16 grid: row-major bytes. -/
def depthToBytes (g : List (List Nat)) : List Nat :=
  u16ListToBytes g.flatten

/-- The client's send step (src/client.py lines 61-65): compress the raw
frame bytes and prepend the 4-byte big-endian length of the compressed
payload. -/
def clientEncode (compress : List Nat → List Nat) (g : List (List Nat)) : List Nat :=
  let data := compress (depthToBytes g)
  packUInt32BE data.length ++ data

/-- The loop body of `recvall` (src/server.py lines 207-215), on a
deterministic byte stream: `conn.recv(k)` hands over the next
`min k (remaining)` bytes (the `packet`), and an exhausted stream models the
peer closing the connection (`recv` returning empty). -/
def recvallGo (s : List Nat) (n : Nat) (data : List Nat) : Option (List Nat) :=
  if h1 : data.length < n then
    if h2 : (s.take (n - data.length)).length = 0 then none
    else recvallGo (s.drop (n - data.length)) n (data ++ s.take (n - data.length))
  else some data
termination_by n - data.length
decreasing_by
  simp only [List.length_take] at h2
  simp only [List.length_append, List.length_take]
  omega

/-- `recvall(conn, n)`: collect exactly `n` bytes, or `None` when the peer
closes first. -/
def recvall (s : List Nat) (n : Nat) : Option (List Nat) :=
  recvallGo s n []

theorem recvall_zero (s : List Nat) : recvall s 0 = some [] := by
  unfold recvall recvallGo
  simp

theorem recvall_of_le (s : List Nat) (n : Nat) (h : n ≤ s.length) :
    recvall s n = some (s.take n) := by
  rcases Nat.eq_zero_or_pos n with h0 | h0
  · subst h0
    simp [recvall_zero]
  · unfold recvall recvallGo
    simp only [List.length_nil, Nat.sub_zero, List.nil_append]
    rw [dif_pos h0, dif_neg (by simp only [List.length_take]; omega)]
    unfold recvallGo
    rw [dif_neg (by simp only [List.length_take]; omega)]

theorem recvall_of_lt (s : List Nat) (n : Nat) (h0 : 0 < n) (h : s.length < n) :
    recvall s n = none := by
  unfold recvall recvallGo
  simp only [List.length_nil, Nat.sub_zero, List.nil_append]
  rw [dif_pos h0]
  by_cases hs : s.length = 0
  · rw [dif_pos (by simp only [List.length_take]; omega)]
  · rw [dif_neg (by simp only [List.length_take]; omega)]
    rw [List.take_of_length_le (by omega), List.drop_eq_nil_of_le (by omega)]
    unfold recvallGo
    rw [dif_pos (by omega)]
    rw [dif_pos (by simp)]

/-- The frame-read step of the server's connection loop (src/server.py
lines 244-254): read the 4-byte length prefix, read that many payload
bytes, decompress, reinterpret as a 480×640 uint16 grid.  `none` models
every `break` out of the connection loop (prefix read failed, payload read
failed, or a falsy — empty — buffer), i.e. no frame is produced. -/
def serverReadFrame (decompress : List Nat → List Nat) (stream : List Nat) :
    Option (List (List Nat)) :=
  match recvall stream 4 with
  | none => none
  | some rawDataSize =>
      if rawDataSize.length = 0 then none
      else
        match recvall (stream.drop 4) (unpackUInt32BE rawDataSize) with
        | none => none
        | some compressedData =>
            if compressedData.length = 0 then none
            else some (reshape480x640 (bytesToU16LE (decompress compressedData)))

/-- One message-processing step of `server_run`: decode a frame from the
stream and, on success, publish it into the single-slot queue; on a break
(`none`) the queue is left untouched. -/
def serverStep (decompress : List Nat → List Nat) (stream : List Nat)
    (q : List (List (List Nat))) : List (List (List Nat)) :=
  match serverReadFrame decompress stream with
  | none => q
  | some f => publish q f

/-- C7: for every 480×640 depth grid with values in [0, 2047], serializing,
compressing (with any lossless compressor pair), length-prefixing, then
reading the length, the payload, decompressing and reinterpreting as a
480×640 uint16 grid on the server reproduces the original grid exactly. -/
theorem roundtrip_framing (compress decompress : List Nat → List Nat)
    (g : List (List Nat)) (hrows : g.length = 480)
    (hcols : ∀ r ∈ g, r.length = 640)
    (hvals : ∀ r ∈ g, ∀ v ∈ r, v ≤ 2047)
    (hinv : ∀ b : List Nat, decompress (compress b) = b)
    (hlen : (compress (depthToBytes g)).length < 4294967296)
    (hpos : 0 < (compress (depthToBytes g)).length) :
    serverReadFrame decompress (clientEncode compress g) = some g := by
  set data := compress (depthToBytes g) with hdata
  have hpack : (packUInt32BE data.length).length = 4 := rfl
  have hstream : clientEncode compress g = packUInt32BE data.length ++ data := rfl
  have h4 : 4 ≤ (clientEncode compress g).length := by
    rw [hstream]
    simp [hpack]
  have e1 : recvall (clientEncode compress g) 4 = some (packUInt32BE data.length) := by
    rw [recvall_of_le _ 4 h4, hstream]
    exact congrArg some (List.take_left' hpack)
  have e2 : (clientEncode compress g).drop 4 = data := by
    rw [hstream]
    exact List.drop_left' hpack
  have e3 : unpackUInt32BE (packUInt32BE data.length) = data.length :=
    unpack_pack data.length hlen
  have e4 : recvall data data.length = some data := by
    rw [recvall_of_le _ _ (le_refl _), List.take_length]
  have hv16 : ∀ v ∈ g.flatten, v < 65536 := by
    intro v hv
    rw [List.mem_flatten] at hv
    obtain ⟨r, hr, hvr⟩ := hv
    have := hvals r hr v hvr
    omega
  simp only [serverReadFrame, e1, e2, e3, e4]
  rw [if_neg (by simp [hpack])]
  rw [if_neg (by omega)]
  rw [hinv]
  show some (reshape480x640 (bytesToU16LE (u16ListToBytes g.flatten))) = some g
  rw [bytesToU16_u16ListToBytes g.flatten hv16]
  unfold reshape480x640
  rw [← hrows, toRows_flatten g hcols]

/-- C7 witness: the round trip applied to the all-zero 480×640 grid with the
identity compressor pair. -/
theorem roundtrip_framing_witness :
    serverReadFrame (fun b => b)
      (clientEncode (fun b => b) (List.replicate 480 (List.replicate 640 0))) =
      some (List.replicate 480 (List.replicate 640 0)) := by
  have hflat : (List.replicate 480 (List.replicate 640 (0 : Nat))).flatten.length =
      480 * 640 := by
    rw [List.length_flatten, List.map_replicate, List.length_replicate, List.sum_const_nat]
  have hlen : (depthToBytes (List.replicate 480 (List.replicate 640 0))).length = 614400 := by
    rw [depthToBytes, u16ListToBytes_length, hflat]
  refine roundtrip_framing (fun b => b) (fun b => b) _ (List.length_replicate _ _) ?_ ?_
    (fun b => rfl) ?_ ?_
  · intro r hr
    rw [List.mem_replicate] at hr
    rw [hr.2]
    exact List.length_replicate _ _
  · intro r hr v hv
    rw [List.mem_replicate] at hr
    rw [hr.2] at hv
    rw [List.mem_replicate] at hv
    omega
  · rw [hlen]
    norm_num
  · rw [hlen]
    norm_num

/-- C10: `recvall(conn, 0)` returns an empty buffer; for `n > 0`, `recvall`
returns either exactly `n` bytes or `None` when the peer closes early; and a
wire message whose 4-byte length prefix decodes to 0 ends the connection
loop without publishing any frame: the queue is unchanged. -/
theorem zero_length_message (s : List Nat) (n : Nat) (hn : 0 < n)
    (decompress : List Nat → List Nat) (rest : List Nat)
    (q : List (List (List Nat))) :
    recvall s 0 = some [] ∧
    (∀ d : List Nat, recvall s n = some d → d.length = n) ∧
    (s.length < n → recvall s n = none) ∧
    serverReadFrame decompress ([0, 0, 0, 0] ++ rest) = none ∧
    serverStep decompress ([0, 0, 0, 0] ++ rest) q = q := by
  have e1 : recvall ([0, 0, 0, 0] ++ rest) 4 = some [0, 0, 0, 0] := by
    rw [recvall_of_le _ 4 (by simp)]
    exact congrArg some (List.take_left' rfl)
  have e2 : ([0, 0, 0, 0] ++ rest).drop 4 = rest := List.drop_left' rfl
  have e3 : unpackUInt32BE [0, 0, 0, 0] = 0 := rfl
  have hframe : serverReadFrame decompress ([0, 0, 0, 0] ++ rest) = none := by
    simp only [serverReadFrame, e1, e2, e3, recvall_zero]
    simp
  refine ⟨recvall_zero s, ?_, fun h => recvall_of_lt s n hn h, hframe, ?_⟩
  · intro d hd
    rcases le_or_lt n s.length with h | h
    · rw [recvall_of_le s n h] at hd
      obtain rfl : s.take n = d := Option.some.inj hd
      simp only [List.length_take]
      omega
    · rw [recvall_of_lt s n hn h] at hd
      exact Option.noConfusion hd
  · unfold serverStep
    rw [hframe]

/-- C10 witness: the theorem's parts at concrete inputs — reading zero bytes
from the stream `[7]` succeeds with an empty buffer, reading 2 bytes from it
hits the peer-closed case, and a zero-length-prefix message leaves the
server without a frame. -/
theorem zero_length_message_witness :
    recvall [7] 0 = some [] ∧
    recvall [7] 2 = none ∧
    serverReadFrame (fun b => b) ([0, 0, 0, 0] ++ [1, 2, 3]) = none ∧
    serverStep (fun b => b) ([0, 0, 0, 0] ++ [1, 2, 3]) [] = [] := by
  have h := zero_length_message [7] 2 (by decide) (fun b => b) [1, 2, 3] []
  exact ⟨h.1, h.2.2.1 (by decide), h.2.2.2.1, h.2.2.2.2⟩

/-! ## Log ring buffer (src/server.py lines 32-40 and 330-336)

    log_messages = deque(maxlen=10)

    def add_log(msg):
        timestamp = time.strftime("%H:%M:%S")
        entry = f"[{timestamp}] {msg}"
        with log_lock:
            log_messages.append(entry.strip())

and `WM_OT_ClearKinectLogs.execute` clears the deque, clears the scene
collection `kinect_log_items` and resets `kinect_log_active_index` to 0. -/

/-- `deque(maxlen=10).append`: when the deque already holds 10 entries the
oldest (leftmost) entry is evicted first. -/
def dequeAppend10 (l : List String) (e : String) : List String :=
  if l.length < 10 then l ++ [e] else l.drop 1 ++ [e]

/-- The formatted log entry `f"[{timestamp}] {msg}".strip()`. -/
def logEntry (ts msg : String) : String :=
  ("[" ++ ts ++ "] " ++ msg).trim

/-- `add_log(msg)` with the wall-clock timestamp passed explicitly. -/
def addLog (ts msg : String) (l : List String) : List String :=
  dequeAppend10 l (logEntry ts msg)

/-- The UI-visible log state: the scene collection `kinect_log_items` and
the integer `kinect_log_active_index`. -/
structure LogUIState : Type where
  items : List String
  activeIndex : Nat
deriving Repr, DecidableEq

/-- `WM_OT_ClearKinectLogs.execute`: `log_messages.clear()`,
`context.scene.kinect_log_items.clear()`,
`context.scene.kinect_log_active_index = 0`. -/
def clearLogsExec (ring : List String) (ui : LogUIState) :
    List String × LogUIState :=
  ((fun _ => []) ring, { ui with items := [], activeIndex := 0 })

/-- C8: adding 15 messages sequentially leaves exactly the last 10 in the
ring buffer, the oldest 5 evicted first, and clearing empties the ring, the
UI-visible list, and resets the active index to 0. -/
theorem log_ring_bound
    (t1 m1 t2 m2 t3 m3 t4 m4 t5 m5 t6 m6 t7 m7 t8 m8 t9 m9 t10 m10
     t11 m11 t12 m12 t13 m13 t14 m14 t15 m15 : String)
    (ring : List String) (ui : LogUIState) :
    addLog t15 m15 (addLog t14 m14 (addLog t13 m13 (addLog t12 m12
      (addLog t11 m11 (addLog t10 m10 (addLog t9 m9 (addLog t8 m8
      (addLog t7 m7 (addLog t6 m6 (addLog t5 m5 (addLog t4 m4
      (addLog t3 m3 (addLog t2 m2 (addLog t1 m1 [])))))))))))))) =
      [logEntry t6 m6, logEntry t7 m7, logEntry t8 m8, logEntry t9 m9,
       logEntry t10 m10, logEntry t11 m11, logEntry t12 m12,
       logEntry t13 m13, logEntry t14 m14, logEntry t15 m15] ∧
    clearLogsExec ring ui = ([], { items := [], activeIndex := 0 }) := by
  refine ⟨?_, rfl⟩
  simp [addLog, dequeAppend10]

end Kinect
